import Mathlib

/-!
# Verification of the qdPDF incremental PDF writer (`qdpdf.py`)

A shallow embedding of the single-class PDF writer: byte streams are modelled as
`List Char` (the source is ISO-8859-1, one `Char` of codepoint < 256 per byte),
the writer object as a structure mirroring `PDFWriter`'s fields, and each method
as a pure function.  Python exceptions are modelled by returning the (possibly
mutated, as in CPython) writer together with an `Option PdfErr`; the caller's
output file — which in Python outlives `self._file = None` — is kept in the
`doc` field, with `is_open` standing for `self._file is not None`.

`_pixels_to_points` evaluates `int(pixels / float(resolution) * 72)` in
double-precision floating point; this is modelled exactly with round-to-nearest,
ties-to-even binary64 arithmetic over transparent exact rationals (with
unbounded exponent range: overflow and subnormals are unreachable for the
magnitudes involved).
-/

set_option maxRecDepth 1000000

namespace QdPdf

/-! ## Exact-rational model of binary64 arithmetic -/

/-- An exact (unnormalized) rational: `num / den` with `den > 0` maintained by
construction.  A transparent replacement for `ℚ` whose operations reduce inside
the kernel. -/
structure PreRat where
  num : Int
  den : Int
deriving DecidableEq

def prOfInt (i : ℤ) : PreRat := ⟨i, 1⟩

def prMul (a b : PreRat) : PreRat := ⟨a.num * b.num, a.den * b.den⟩

def prDiv (a b : PreRat) : PreRat :=
  if 0 ≤ b.num then ⟨a.num * b.den, a.den * b.num⟩ else ⟨-(a.num * b.den), -(a.den * b.num)⟩

def prSub (a b : PreRat) : PreRat := ⟨a.num * b.den - b.num * a.den, a.den * b.den⟩

/-- `a < b` for rationals with positive denominators, as a Bool. -/
def prLtB (a b : PreRat) : Bool := a.num * b.den < b.num * a.den

/-- `a ≤ b` for rationals with positive denominators, as a Bool. -/
def prLeB (a b : PreRat) : Bool := a.num * b.den ≤ b.num * a.den

/-- Floor of a rational with positive denominator and nonnegative numerator (also
truncation toward zero there). -/
def prFloorPos (q : PreRat) : ℤ := q.num / q.den

/-- Exponent search: for `1 ≤ q`, number of halvings until the value drops below 2,
i.e. `⌊log₂ q⌋` (fuel-bounded structural recursion; fuel 4400 covers every value
arising from the writer's arithmetic). -/
def posExpFuel : Nat → PreRat → Nat
  | 0, _ => 0
  | f+1, q => if prLtB q (prOfInt 2) then 0 else posExpFuel f ⟨q.num, q.den * 2⟩ + 1

/-- Exponent search for `0 < q < 1`: number of doublings until the value reaches 1. -/
def negExpFuel : Nat → PreRat → Nat
  | 0, _ => 0
  | f+1, q => if prLeB (prOfInt 1) q then 0 else negExpFuel f ⟨q.num * 2, q.den⟩ + 1

/-- `⌊log₂ q⌋` for positive rationals. -/
def qExp (q : PreRat) : ℤ :=
  if prLeB (prOfInt 1) q then (posExpFuel 4400 q : ℤ) else -((negExpFuel 4400 q : ℤ))

/-- `2 ^ n` as an integer, by structural recursion (kernel-reducible). -/
def pow2Z : Nat → ℤ
  | 0 => 1
  | n+1 => 2 * pow2Z n

/-- Multiply a rational by an integer power of two. -/
def mul2powQ (q : PreRat) (k : ℤ) : PreRat :=
  if 0 ≤ k then ⟨q.num * pow2Z k.toNat, q.den⟩ else ⟨q.num, q.den * pow2Z (-k).toNat⟩

/-- Round an exact rational to the nearest IEEE-754 binary64 value (53-bit
significand, round-to-nearest, ties-to-even), with unbounded exponent range. -/
def roundRNE (q : PreRat) : PreRat :=
  if q.num = 0 then prOfInt 0
  else
    let a : PreRat := if q.num < 0 then ⟨-q.num, q.den⟩ else q
    let e := qExp a
    let m := mul2powQ a (52 - e)
    let lo : ℤ := prFloorPos m
    let r : PreRat := prSub m (prOfInt lo)
    let n : ℤ :=
      if prLtB r ⟨1, 2⟩ then lo
      else if prLtB ⟨1, 2⟩ r then lo + 1
      else if lo % 2 = 0 then lo else lo + 1
    let v := mul2powQ (prOfInt n) (e - 52)
    if q.num < 0 then ⟨-v.num, v.den⟩ else v

/-- Python `float(i)` on an int: correctly rounded conversion to binary64. -/
def floatOfInt (i : ℤ) : PreRat := roundRNE (prOfInt i)

/-- IEEE binary64 division (correctly rounded). -/
def floatDiv (a b : PreRat) : PreRat := roundRNE (prDiv a b)

/-- IEEE binary64 multiplication (correctly rounded). -/
def floatMul (a b : PreRat) : PreRat := roundRNE (prMul a b)

/-- Python `int()` on a finite float value: truncation toward zero. -/
def truncQ (q : PreRat) : ℤ := q.num / q.den

/-- `PDFWriter._pixels_to_points`: `int(pixels / float(resolution) * 72)`, evaluated
in double-precision floating point exactly as CPython does (the int operands are
converted to binary64 with correct rounding, then divided and multiplied with
IEEE round-to-nearest, and the result truncated toward zero). -/
def pixels_to_points (pixels resolution : ℤ) : ℤ :=
  truncQ (floatMul (floatDiv (floatOfInt pixels) (floatOfInt resolution)) (floatOfInt 72))

/-! ## Byte-string helpers -/

/-- The bytes of an ISO-8859-1 string literal. -/
def bs (s : String) : List Char := s.data

/-- Decimal digits of a natural number, most significant first; `fuel`-bounded
structural mirror of the usual div-10 recursion (`fuel > n` suffices). -/
def decDigitsAux : Nat → Nat → List Char
  | 0, _ => []
  | f+1, n => if n < 10 then [Nat.digitChar n] else decDigitsAux f (n / 10) ++ [Nat.digitChar (n % 10)]

/-- Python `'%s' % n` for a nonnegative integer: decimal digits. -/
def natStr (n : Nat) : List Char := decDigitsAux (n + 1) n

/-- Python `'%s' % i` for an int. -/
def intStr (i : ℤ) : List Char := if i < 0 then '-' :: natStr (-i).toNat else natStr i.toNat

/-- `_writeln`: write `data` followed by a single `'\x0A'`. -/
def wln (out data : List Char) : List Char := out ++ data ++ ['\n']

/-- The header line written by `_write_obj`: `'%s 0 obj' % ref` (without the newline). -/
def objLine (ref : Nat) : List Char := natStr ref ++ bs " 0 obj"

/-- `'%0Nd'`-style zero padding (grows beyond `w` digits when needed, like Python). -/
def padZeros (w : Nat) (s : List Char) : List Char := List.replicate (w - s.length) '0' ++ s

/-! ## Constants from the module -/

/-- JPEG start-of-image marker, `'\xFF\xD8'`. -/
def SOI : List Char := ['\xFF', '\xD8']

def SOI_size : Nat := SOI.length

def min_jpeg_len : Nat := 120

def buffer_size : Nat := 16384

/-- Chunking performed by `iter(lambda: jpegdata.read(buffer_size), '')`:
the payload split into successive `buffer_size`-byte chunks. -/
def chunkList (l : List Char) : List (List Char) :=
  match l with
  | [] => []
  | c :: rest => ((c :: rest).take buffer_size) :: chunkList ((c :: rest).drop buffer_size)
termination_by l.length
decreasing_by
  simp only [buffer_size, List.length_drop, List.length_cons]
  omega

/-! ## The data model -/

/-- `jpegdata` argument of `add_page`: an in-memory byte string, or a readable
file-like object whose full contents are the given bytes. -/
inductive JpegData where
  | str (data : List Char)
  | fileLike (data : List Char)
deriving DecidableEq

/-- The underlying bytes of either payload form. -/
def JpegData.bytes : JpegData → List Char
  | .str s => s
  | .fileLike s => s

/-- The exceptions the writer can raise:
`closed` = `RuntimeError('PDF closed.')`, `noPages` = `RuntimeError('No pages added to PDF.')`,
and the four `ValueError`s of `add_page` validation. -/
inductive PdfErr where
  | closed
  | invalidData
  | invalidLength
  | invalidWidth
  | invalidHeight
  | invalidResolution
  | noPages
deriving DecidableEq

/-- State of a `PDFWriter` object.  `doc` is the contents of the caller's output
file (which in Python outlives the writer); `is_open` models `self._file is not
None`.  `catalog_ref` is unset before `_write_catalog` runs; it is defaulted to 0
here. -/
structure PDFWriter where
  doc : List Char
  is_open : Bool
  last_obj : Nat
  page_refs : List Nat
  obj_offsets : List Nat
  page_count : Nat
  xref_offset : Nat
  xref_size : Nat
  initial_offset : Nat
  catalog_ref : Nat
deriving DecidableEq

/-- `PDFWriter.__init__(file)`: record the sentinel offset (the file's current
position, i.e. its current length `file0.length`), reserve slot 1 with the
placeholder offset 8, and write the two preamble lines `%PDF-1.2` and
`%\xFFççç\x00`. -/
def PDFWriter.init (file0 : List Char) : PDFWriter :=
  let offs0 : List Nat := [] ++ [file0.length]
  let initial := offs0.headD 0
  let offs1 := offs0 ++ [8]
  let out := wln (wln file0 (bs "%PDF-1.2")) (bs "%\xFFççç\x00")
  { doc := out, is_open := true, last_obj := 1, page_refs := [], obj_offsets := offs1,
    page_count := 0, xref_offset := 0, xref_size := 0,
    initial_offset := initial, catalog_ref := 0 }

/-! ### The private emit helpers (pure functions on the open stream) -/

/-- `_write_page`: save offset, then emit the page object. -/
def writePage (out : List Char) (offs : List Nat) (ref image_ref contents_ref : Nat)
    (width_pt height_pt : ℤ) : List Char × List Nat :=
  let offs := offs ++ [out.length]
  let out := wln out (objLine ref)
  let out := wln out (bs "<</Type /Page /Parent 1 0 R /Contents " ++ natStr contents_ref ++ bs " 0 R")
  let out := wln out (bs "/Resources <</ProcSet [ /PDF /ImageC ] /XObject <</image " ++ natStr image_ref ++ bs " 0 R>> >>")
  let out := wln out (bs "/MediaBox [0 0 " ++ intStr width_pt ++ bs " " ++ intStr height_pt ++ bs "]>>")
  let out := wln out (bs "endobj")
  (out, offs)

/-- `_write_image`: save offset, emit the image XObject; a file-like payload is
copied in `buffer_size` chunks followed by `_writeln('')`, an in-memory payload
is written by `_writeln(jpegdata)`. -/
def writeImage (out : List Char) (offs : List Nat) (ref : Nat) (width_px height_px : ℤ)
    (colorspace : List Char) (data : List Char) (data_len : Nat) (jpeg_file : Bool) :
    List Char × List Nat :=
  let offs := offs ++ [out.length]
  let out := wln out (objLine ref)
  let out := wln out (bs "<</Type /XObject /Subtype /Image /Width " ++ intStr width_px ++ bs " /Height " ++ intStr height_px ++ bs " /ColorSpace " ++ colorspace)
  let out := wln out (bs "/BitsPerComponent 8 /Filter /DCTDecode /Length " ++ natStr data_len ++ bs ">> stream")
  let out :=
    if jpeg_file then wln (out ++ (chunkList data).flatten) []
    else wln out data
  let out := wln out (bs "endstream")
  let out := wln out (bs "endobj")
  (out, offs)

/-- `_write_contents`: save offset, emit the content stream scaling the unit
image to the page size. -/
def writeContents (out : List Char) (offs : List Nat) (ref : Nat)
    (width_pt height_pt : ℤ) : List Char × List Nat :=
  let page_contents := bs "q " ++ intStr width_pt ++ bs " 0 0 " ++ intStr height_pt ++ bs " 0 0 cm /image Do Q "
  let offs := offs ++ [out.length]
  let out := wln out (objLine ref)
  let out := wln out (bs "<</Length " ++ natStr page_contents.length ++ bs ">> stream")
  let out := wln out page_contents
  let out := wln out (bs "endstream")
  let out := wln out (bs "endobj")
  (out, offs)

/-- `_write_catalog`. -/
def writeCatalog (out : List Char) (offs : List Nat) (ref : Nat) : List Char × List Nat :=
  let offs := offs ++ [out.length]
  let out := wln out (objLine ref)
  let out := wln out (bs "<</Type /Catalog /Pages 1 0 R>>")
  let out := wln out (bs "endobj")
  (out, offs)

/-- The `page_refs` string built by the loop in `_write_page_list`:
`'%s 0 R ' % ref` concatenated per page. -/
def kidsStr (refs : List Nat) : List Char :=
  refs.foldl (fun acc r => acc ++ natStr r ++ bs " 0 R ") []

/-- `_write_page_list`: back-patch slot 1 of the ledger with the current position
and emit the page-list object at identifier 1. -/
def writePageList (out : List Char) (offs : List Nat) (page_count : Nat)
    (refs : List Nat) : List Char × List Nat :=
  let offs := offs.set 1 out.length
  let out := wln out (objLine 1)
  let out := wln out (bs "<</Type /Pages /Count " ++ natStr page_count ++ bs " /Kids [" ++ kidsStr refs ++ bs "]>>")
  let out := wln out (bs "endobj")
  (out, offs)

/-- One xref table line, `'%010d %05d %s ' % (offset, revision, status)`; the
entry whose offset equals `initial_offset` (object 0) is marked free with
generation 65535, all others active with generation 0. -/
def xrefEntry (offset initial_offset : Nat) : List Char :=
  let rev : Nat := if offset = initial_offset then 65535 else 0
  let status : List Char := if offset = initial_offset then bs "f" else bs "n"
  padZeros 10 (natStr offset) ++ bs " " ++ padZeros 5 (natStr rev) ++ bs " " ++ status ++ bs " "

/-- `_write_xref` after `xref_offset`/`xref_size` have been recorded: the `xref`
keyword, the `0 size` subsection header, then one line per ledger entry. -/
def writeXref (out : List Char) (offs : List Nat) (initial_offset xref_size : Nat) :
    List Char :=
  let out := wln out (bs "xref")
  let out := wln out (bs "0 " ++ natStr xref_size)
  offs.foldl (fun o off => wln o (xrefEntry off initial_offset)) out

/-- `_write_trailer` (the UUID is an opaque token supplied by the environment;
it is written twice into the ID field). -/
def writeTrailer (out : List Char) (xref_size catalog_ref xref_offset : Nat)
    (uuid : List Char) : List Char :=
  let out := wln out (bs "trailer <</Size " ++ natStr xref_size ++ bs " /Root " ++ natStr catalog_ref ++ bs " 0 R /ID [(" ++ uuid ++ bs ")(" ++ uuid ++ bs ")]>>")
  let out := wln out (bs "startxref " ++ natStr xref_offset)
  wln out (bs "%%EOF")

/-- `PDFWriter.add_page(jpegdata, width_px, height_px, resolution, grayscale)`.
Validation happens first, returning the writer untouched on failure; then the
three identifiers are allocated and the page bookkeeping mutated; only then does
the first write (`_write_page` → `_save_offset` → `_check_closed`) run, so a
closed writer raises `closed` *after* those mutations, exactly as in CPython. -/
def PDFWriter.add_page (w : PDFWriter) (jpegdata : JpegData)
    (width_px height_px resolution : ℤ) (grayscale : Bool) :
    PDFWriter × Option PdfErr :=
  let jpeg_file := match jpegdata with | .str _ => false | .fileLike _ => true
  let data := jpegdata.bytes
  let read_soi := data.take SOI_size
  let data_len := data.length
  if read_soi ≠ SOI then (w, some .invalidData)
  else if data_len < min_jpeg_len then (w, some .invalidLength)
  else if width_px < 1 then (w, some .invalidWidth)
  else if height_px < 1 then (w, some .invalidHeight)
  else if resolution < 1 then (w, some .invalidResolution)
  else
    let page_ref := w.last_obj + 1
    let image_ref := page_ref + 1
    let contents_ref := image_ref + 1
    let w1 := { w with last_obj := contents_ref,
                       page_refs := w.page_refs ++ [page_ref],
                       page_count := w.page_count + 1 }
    if w1.is_open = false then (w1, some .closed)
    else
      let width_pt := pixels_to_points width_px resolution
      let height_pt := pixels_to_points height_px resolution
      let colorspace := if grayscale then bs "/DeviceGray" else bs "/DeviceRGB"
      let (out, offs) := writePage w1.doc w1.obj_offsets page_ref image_ref contents_ref width_pt height_pt
      let (out, offs) := writeImage out offs image_ref width_px height_px colorspace data data_len jpeg_file
      let (out, offs) := writeContents out offs contents_ref width_pt height_pt
      ({ w1 with doc := out, obj_offsets := offs }, none)

/-- `PDFWriter.close(uuid)`: fails with `noPages` when no page was added; else
allocates the catalog identifier (mutating `last_obj` even on an already-closed
writer, whose first write then raises `closed`), emits catalog, page list, xref
and trailer, and seals the writer. -/
def PDFWriter.close (w : PDFWriter) (uuid : List Char) : PDFWriter × Option PdfErr :=
  if w.page_count < 1 then (w, some .noPages)
  else
    let catalog_ref := w.last_obj + 1
    let w1 := { w with last_obj := catalog_ref }
    if w1.is_open = false then (w1, some .closed)
    else
      let (out, offs) := writeCatalog w1.doc w1.obj_offsets catalog_ref
      let (out, offs) := writePageList out offs w1.page_count w1.page_refs
      let xref_offset := out.length
      let xref_size := w1.last_obj + 1
      let out := writeXref out offs w1.initial_offset xref_size
      let out := writeTrailer out xref_size catalog_ref xref_offset uuid
      ({ w1 with doc := out, is_open := false, obj_offsets := offs,
                 xref_offset := xref_offset, xref_size := xref_size,
                 catalog_ref := catalog_ref }, none)

/-! ## Driver definitions used by the claims -/

/-- Arguments of one `add_page` call. -/
structure PageArgs where
  jpegdata : JpegData
  width_px : ℤ
  height_px : ℤ
  resolution : ℤ
  grayscale : Bool
deriving DecidableEq

/-- Perform one `add_page` call, keeping the (possibly mutated) writer. -/
def addPage1 (w : PDFWriter) (p : PageArgs) : PDFWriter :=
  (w.add_page p.jpegdata p.width_px p.height_px p.resolution p.grayscale).fst

/-- Perform a sequence of `add_page` calls. -/
def runAdd (w : PDFWriter) (pages : List PageArgs) : PDFWriter :=
  pages.foldl addPage1 w

/-- Open a writer on a file whose current contents are `file0`, add the given
pages, and close with the given UUID token. -/
def runDoc (file0 : List Char) (pages : List PageArgs) (uuid : List Char) : PDFWriter :=
  ((runAdd (PDFWriter.init file0) pages).close uuid).fst

/-- The arguments of an `add_page` call pass validation. -/
def validArgs (p : PageArgs) : Prop :=
  p.jpegdata.bytes.take SOI_size = SOI ∧ min_jpeg_len ≤ p.jpegdata.bytes.length ∧
  1 ≤ p.width_px ∧ 1 ≤ p.height_px ∧ 1 ≤ p.resolution

instance (p : PageArgs) : Decidable (validArgs p) := by
  unfold validArgs; infer_instance

/-- A sample valid page: 120-byte payload starting with the SOI marker. -/
def samplePage : PageArgs :=
  ⟨.str ('\xFF' :: '\xD8' :: List.replicate 118 '\x00'), 800, 600, 150, false⟩

/-! ## Normal forms of the emitted blocks, and the proof-layer data -/

/-- The body (everything after the header line) of a page object. -/
def pageBody (image_ref contents_ref : Nat) (width_pt height_pt : ℤ) : List Char :=
  ((bs "<</Type /Page /Parent 1 0 R /Contents " ++ natStr contents_ref ++ bs " 0 R") ++ ['\n']) ++
  ((bs "/Resources <</ProcSet [ /PDF /ImageC ] /XObject <</image " ++ natStr image_ref ++ bs " 0 R>> >>") ++ ['\n']) ++
  ((bs "/MediaBox [0 0 " ++ intStr width_pt ++ bs " " ++ intStr height_pt ++ bs "]>>") ++ ['\n']) ++
  (bs "endobj" ++ ['\n'])

/-- The bytes `_write_page` appends. -/
def pageBlock (ref image_ref contents_ref : Nat) (width_pt height_pt : ℤ) : List Char :=
  (objLine ref ++ ['\n']) ++ pageBody image_ref contents_ref width_pt height_pt

/-- The body of an image object. -/
def imageBody (width_px height_px : ℤ) (colorspace data : List Char) (data_len : Nat) :
    List Char :=
  ((bs "<</Type /XObject /Subtype /Image /Width " ++ intStr width_px ++ bs " /Height " ++ intStr height_px ++ bs " /ColorSpace " ++ colorspace) ++ ['\n']) ++
  ((bs "/BitsPerComponent 8 /Filter /DCTDecode /Length " ++ natStr data_len ++ bs ">> stream") ++ ['\n']) ++
  (data ++ ['\n']) ++
  (bs "endstream" ++ ['\n']) ++
  (bs "endobj" ++ ['\n'])

/-- The bytes `_write_image` appends (identical for the streaming and in-memory
paths: the chunked copy plus `_writeln('')` writes exactly `data ++ '\n'`). -/
def imageBlock (ref : Nat) (width_px height_px : ℤ) (colorspace data : List Char)
    (data_len : Nat) : List Char :=
  (objLine ref ++ ['\n']) ++ imageBody width_px height_px colorspace data data_len

/-- The body of a content-stream object. -/
def contentsBody (width_pt height_pt : ℤ) : List Char :=
  ((bs "<</Length " ++ natStr (bs "q " ++ intStr width_pt ++ bs " 0 0 " ++ intStr height_pt ++ bs " 0 0 cm /image Do Q ").length ++ bs ">> stream") ++ ['\n']) ++
  ((bs "q " ++ intStr width_pt ++ bs " 0 0 " ++ intStr height_pt ++ bs " 0 0 cm /image Do Q ") ++ ['\n']) ++
  (bs "endstream" ++ ['\n']) ++
  (bs "endobj" ++ ['\n'])

/-- The bytes `_write_contents` appends. -/
def contentsBlock (ref : Nat) (width_pt height_pt : ℤ) : List Char :=
  (objLine ref ++ ['\n']) ++ contentsBody width_pt height_pt

/-- The body of the catalog object. -/
def catalogBody : List Char :=
  (bs "<</Type /Catalog /Pages 1 0 R>>" ++ ['\n']) ++
  (bs "endobj" ++ ['\n'])

/-- The bytes `_write_catalog` appends. -/
def catalogBlock (ref : Nat) : List Char :=
  (objLine ref ++ ['\n']) ++ catalogBody

/-- The body of the page-list object. -/
def pageListBody (page_count : Nat) (kids : List Char) : List Char :=
  ((bs "<</Type /Pages /Count " ++ natStr page_count ++ bs " /Kids [" ++ kids ++ bs "]>>") ++ ['\n']) ++
  (bs "endobj" ++ ['\n'])

/-- The bytes `_write_page_list` appends. -/
def pageListBlock (page_count : Nat) (kids : List Char) : List Char :=
  (objLine 1 ++ ['\n']) ++ pageListBody page_count kids

/-- The bytes `_write_xref` appends: the `xref` keyword, the subsection header,
and one 20-byte line per ledger entry, in identifier order. -/
def xrefSectionChars (offs : List Nat) (initial size : Nat) : List Char :=
  (bs "xref" ++ ['\n']) ++
  ((bs "0 " ++ natStr size) ++ ['\n']) ++
  (offs.map (fun o => xrefEntry o initial ++ ['\n'])).flatten

/-- The bytes `_write_trailer` appends. -/
def trailerChars (xref_size catalog_ref xref_offset : Nat) (uuid : List Char) : List Char :=
  ((bs "trailer <</Size " ++ natStr xref_size ++ bs " /Root " ++ natStr catalog_ref ++ bs " 0 R /ID [(" ++ uuid ++ bs ")(" ++ uuid ++ bs ")]>>") ++ ['\n']) ++
  ((bs "startxref " ++ natStr xref_offset) ++ ['\n']) ++
  (bs "%%EOF" ++ ['\n'])

/-- Width in points of a page's arguments. -/
def ptW (p : PageArgs) : ℤ := pixels_to_points p.width_px p.resolution

/-- Height in points of a page's arguments. -/
def ptH (p : PageArgs) : ℤ := pixels_to_points p.height_px p.resolution

/-- Colorspace name chosen from the `grayscale` flag. -/
def csOf (p : PageArgs) : List Char := if p.grayscale then bs "/DeviceGray" else bs "/DeviceRGB"

/-- The page object block emitted for page arguments `p` when `last_obj = base`
before the call. -/
def pBlockOf (base : Nat) (p : PageArgs) : List Char :=
  pageBlock (base + 1) (base + 2) (base + 3) (ptW p) (ptH p)

/-- The image object block emitted for page arguments `p`. -/
def iBlockOf (base : Nat) (p : PageArgs) : List Char :=
  imageBlock (base + 2) p.width_px p.height_px (csOf p) p.jpegdata.bytes p.jpegdata.bytes.length

/-- The content-stream object block emitted for page arguments `p`. -/
def cBlockOf (base : Nat) (p : PageArgs) : List Char :=
  contentsBlock (base + 3) (ptW p) (ptH p)

/-- The stream `out` contains the object header line `'ref 0 obj\n'` starting at
byte position `off`. -/
def HeaderAt (out : List Char) (off ref : Nat) : Prop :=
  ∃ pre rest, out = pre ++ (objLine ref ++ ['\n']) ++ rest ∧ pre.length = off

/-- The invariant tying together the bookkeeping fields and the stream after
`init` followed by any number of valid `add_page` calls on an open writer whose
underlying file started with `P` bytes. -/
structure Inv (P : Nat) (w : PDFWriter) : Prop where
  opened : w.is_open = true
  last : w.last_obj = 3 * w.page_count + 1
  refs : w.page_refs = (List.range w.page_count).map (fun k => 3 * k + 2)
  offlen : w.obj_offsets.length = 3 * w.page_count + 2
  ini : w.initial_offset = P
  off0 : w.obj_offsets.getD 0 0 = P
  off1 : w.obj_offsets.getD 1 0 = 8
  doclen : P + 16 ≤ w.doc.length
  hdrs : ∀ i, 2 ≤ i → i < w.obj_offsets.length →
    HeaderAt w.doc (w.obj_offsets.getD i 0) i ∧ P + 16 ≤ w.obj_offsets.getD i 0

/-! ## Call sequences admitted by the API -/

/-- Writer states reachable by API calls made only while the writer is open
(calling into a closed writer is rejected by the API; see the closed-call
theorems for what the code does when that discipline is violated). -/
inductive Reaches (file0 : List Char) : PDFWriter → Prop where
  | init : Reaches file0 (PDFWriter.init file0)
  | add_page (w : PDFWriter) (p : PageArgs) : Reaches file0 w → w.is_open = true →
      Reaches file0 (addPage1 w p)
  | close (w : PDFWriter) (u : List Char) : Reaches file0 w → w.is_open = true →
      Reaches file0 (w.close u).fst


/-! ## Theorems -/

/-! ## Normal forms of the emitted blocks -/

theorem chunkList_flatten (l : List Char) : (chunkList l).flatten = l := by
  induction l using chunkList.induct with
  | case1 => simp [chunkList]
  | case2 c rest ih =>
    rw [chunkList]
    simp only [List.flatten_cons, ih, List.take_append_drop]

theorem writePage_eq (out : List Char) (offs : List Nat) (ref image_ref contents_ref : Nat)
    (width_pt height_pt : ℤ) :
    writePage out offs ref image_ref contents_ref width_pt height_pt =
      (out ++ pageBlock ref image_ref contents_ref width_pt height_pt, offs ++ [out.length]) := by
  simp [writePage, pageBlock, pageBody, wln, List.append_assoc]

theorem writeImage_eq (out : List Char) (offs : List Nat) (ref : Nat) (width_px height_px : ℤ)
    (colorspace data : List Char) (data_len : Nat) (jpeg_file : Bool) :
    writeImage out offs ref width_px height_px colorspace data data_len jpeg_file =
      (out ++ imageBlock ref width_px height_px colorspace data data_len, offs ++ [out.length]) := by
  cases jpeg_file <;>
    simp [writeImage, imageBlock, imageBody, wln, chunkList_flatten, List.append_assoc]

theorem writeContents_eq (out : List Char) (offs : List Nat) (ref : Nat)
    (width_pt height_pt : ℤ) :
    writeContents out offs ref width_pt height_pt =
      (out ++ contentsBlock ref width_pt height_pt, offs ++ [out.length]) := by
  simp [writeContents, contentsBlock, contentsBody, wln, List.append_assoc]

theorem writeCatalog_eq (out : List Char) (offs : List Nat) (ref : Nat) :
    writeCatalog out offs ref = (out ++ catalogBlock ref, offs ++ [out.length]) := by
  simp [writeCatalog, catalogBlock, catalogBody, wln, List.append_assoc]

theorem writePageList_eq (out : List Char) (offs : List Nat) (page_count : Nat)
    (refs : List Nat) :
    writePageList out offs page_count refs =
      (out ++ pageListBlock page_count (kidsStr refs), offs.set 1 out.length) := by
  simp [writePageList, pageListBlock, pageListBody, wln, List.append_assoc]

theorem foldl_wln (g : Nat → List Char) (offs : List Nat) :
    ∀ out : List Char,
      offs.foldl (fun o off => wln o (g off)) out =
        out ++ (offs.map (fun off => g off ++ ['\n'])).flatten := by
  induction offs with
  | nil => intro out; simp
  | cons a t ih =>
    intro out
    rw [List.foldl_cons, ih]
    simp [wln, List.append_assoc]

theorem writeXref_eq (out : List Char) (offs : List Nat) (initial_offset xref_size : Nat) :
    writeXref out offs initial_offset xref_size =
      out ++ xrefSectionChars offs initial_offset xref_size := by
  simp only [writeXref, foldl_wln]
  simp [xrefSectionChars, wln, List.append_assoc]

theorem writeTrailer_eq (out : List Char) (xref_size catalog_ref xref_offset : Nat)
    (uuid : List Char) :
    writeTrailer out xref_size catalog_ref xref_offset uuid =
      out ++ trailerChars xref_size catalog_ref xref_offset uuid := by
  simp [writeTrailer, trailerChars, wln, List.append_assoc]

/-! ## One-step characterizations of the public methods -/

theorem add_page_spec (w : PDFWriter) (p : PageArgs) (hopen : w.is_open = true)
    (hv : validArgs p) :
    w.add_page p.jpegdata p.width_px p.height_px p.resolution p.grayscale =
      ({ w with
          doc := w.doc ++ (pBlockOf w.last_obj p ++ (iBlockOf w.last_obj p ++ cBlockOf w.last_obj p)),
          last_obj := w.last_obj + 3,
          page_refs := w.page_refs ++ [w.last_obj + 1],
          page_count := w.page_count + 1,
          obj_offsets := w.obj_offsets ++
            [w.doc.length,
             w.doc.length + (pBlockOf w.last_obj p).length,
             w.doc.length + (pBlockOf w.last_obj p).length + (iBlockOf w.last_obj p).length] },
       none) := by
  obtain ⟨h1, h2, h3, h4, h5⟩ := hv
  have h2' : ¬ (p.jpegdata.bytes.length < min_jpeg_len) := not_lt.mpr h2
  have h3' : ¬ (p.width_px < 1) := not_lt.mpr h3
  have h4' : ¬ (p.height_px < 1) := not_lt.mpr h4
  have h5' : ¬ (p.resolution < 1) := not_lt.mpr h5
  simp [PDFWriter.add_page, h1, h2', h3', h4', h5', hopen,
        writePage_eq, writeImage_eq, writeContents_eq,
        pBlockOf, iBlockOf, cBlockOf, ptW, ptH, csOf,
        List.length_append, List.append_assoc]
  ring_nf

theorem close_spec (w : PDFWriter) (uuid : List Char) (hopen : w.is_open = true)
    (hpc : 1 ≤ w.page_count) :
    w.close uuid =
      ({ w with
          doc := w.doc ++ (catalogBlock (w.last_obj + 1) ++
                 (pageListBlock w.page_count (kidsStr w.page_refs) ++
                 (xrefSectionChars ((w.obj_offsets ++ [w.doc.length]).set 1
                     (w.doc.length + (catalogBlock (w.last_obj + 1)).length))
                   w.initial_offset (w.last_obj + 2) ++
                 trailerChars (w.last_obj + 2) (w.last_obj + 1)
                   (w.doc.length + (catalogBlock (w.last_obj + 1)).length +
                    (pageListBlock w.page_count (kidsStr w.page_refs)).length) uuid))),
          is_open := false,
          last_obj := w.last_obj + 1,
          obj_offsets := (w.obj_offsets ++ [w.doc.length]).set 1
            (w.doc.length + (catalogBlock (w.last_obj + 1)).length),
          xref_offset := w.doc.length + (catalogBlock (w.last_obj + 1)).length +
            (pageListBlock w.page_count (kidsStr w.page_refs)).length,
          xref_size := w.last_obj + 2,
          catalog_ref := w.last_obj + 1 }, none) := by
  have h : ¬ (w.page_count < 1) := not_lt.mpr hpc
  simp [PDFWriter.close, h, hopen, writeCatalog_eq, writePageList_eq, writeXref_eq,
        writeTrailer_eq, List.length_append, List.append_assoc]
  constructor
  · ring_nf
  · ring_nf

/-! ## Ledger indexing helpers -/

theorem getD_append_lt {l l' : List Nat} {i d : Nat} (h : i < l.length) :
    (l ++ l').getD i d = l.getD i d := by
  simp [List.getD_eq_getElem?_getD, List.getElem?_append_left h]

theorem getD_append_ge {l l' : List Nat} {i d : Nat} (h : l.length ≤ i) :
    (l ++ l').getD i d = l'.getD (i - l.length) d := by
  simp [List.getD_eq_getElem?_getD, List.getElem?_append_right h]

theorem getD_set_self {l : List Nat} {i v d : Nat} (h : i < l.length) :
    (l.set i v).getD i d = v := by
  simp [List.getD_eq_getElem?_getD, List.getElem?_set_self h]

theorem getD_set_ne {l : List Nat} {i j v d : Nat} (h : i ≠ j) :
    (l.set i v).getD j d = l.getD j d := by
  simp [List.getD_eq_getElem?_getD, List.getElem?_set_ne h]

/-! ## Object headers in the stream -/

theorem HeaderAt.append_right {out : List Char} {off ref : Nat}
    (h : HeaderAt out off ref) (ex : List Char) : HeaderAt (out ++ ex) off ref := by
  obtain ⟨pre, rest, rfl, hl⟩ := h
  exact ⟨pre, rest ++ ex, by simp [List.append_assoc], hl⟩

/-- A block of shape `(objLine ref ++ '\n') ++ body` placed directly after `out`
puts the header of `ref` at position `out.length`. -/
theorem headerAt_block (out tail : List Char) (ref : Nat) (body : List Char) :
    HeaderAt (out ++ (((objLine ref ++ ['\n']) ++ body) ++ tail)) out.length ref :=
  ⟨out, body ++ tail, by simp [List.append_assoc], rfl⟩

/-- `headerAt_block`, stated through an equation on the stream (convenient after
reassociating appends). -/
theorem headerAt_of_eq (out tail body : List Char) {doc : List Char} {ref off : Nat}
    (hdoc : doc = out ++ (((objLine ref ++ ['\n']) ++ body) ++ tail))
    (hoff : out.length = off) : HeaderAt doc off ref := by
  subst hdoc; subst hoff; exact headerAt_block out tail ref body

/-! ## The reachable-state invariant -/

theorem inv_init (file0 : List Char) : Inv file0.length (PDFWriter.init file0) := by
  refine ⟨rfl, rfl, rfl, rfl, ?_, ?_, ?_, ?_, ?_⟩
  · simp [PDFWriter.init]
  · simp [PDFWriter.init]
  · simp [PDFWriter.init]
  · simp [PDFWriter.init, wln, bs, List.length_append]
  · intro i h2 hlen
    simp [PDFWriter.init] at hlen
    omega

theorem inv_addPage1 {P : Nat} {w : PDFWriter} (hw : Inv P w) (p : PageArgs)
    (hv : validArgs p) :
    Inv P (addPage1 w p) ∧ (addPage1 w p).page_count = w.page_count + 1 := by
  have hspec := add_page_spec w p hw.opened hv
  have haddP : addPage1 w p =
      { w with
          doc := w.doc ++ (pBlockOf w.last_obj p ++ (iBlockOf w.last_obj p ++ cBlockOf w.last_obj p)),
          last_obj := w.last_obj + 3,
          page_refs := w.page_refs ++ [w.last_obj + 1],
          page_count := w.page_count + 1,
          obj_offsets := w.obj_offsets ++
            [w.doc.length,
             w.doc.length + (pBlockOf w.last_obj p).length,
             w.doc.length + (pBlockOf w.last_obj p).length + (iBlockOf w.last_obj p).length] } := by
    unfold addPage1
    rw [hspec]
  rw [haddP]
  have hlastv : w.last_obj = 3 * w.page_count + 1 := hw.last
  have hofflenv : w.obj_offsets.length = 3 * w.page_count + 2 := hw.offlen
  refine ⟨⟨hw.opened, ?_, ?_, ?_, hw.ini, ?_, ?_, ?_, ?_⟩, rfl⟩
  · show w.last_obj + 3 = 3 * (w.page_count + 1) + 1
    omega
  · show w.page_refs ++ [w.last_obj + 1] = (List.range (w.page_count + 1)).map (fun k => 3 * k + 2)
    rw [List.range_succ, List.map_append, ← hw.refs, hlastv]
    simp
  · show (w.obj_offsets ++ _).length = 3 * (w.page_count + 1) + 2
    simp only [List.length_append, List.length_cons, List.length_nil, hofflenv]
    omega
  · show (w.obj_offsets ++ _).getD 0 0 = P
    have h0 : (0 : Nat) < w.obj_offsets.length := by omega
    rw [getD_append_lt h0]; exact hw.off0
  · show (w.obj_offsets ++ _).getD 1 0 = 8
    have h1 : (1 : Nat) < w.obj_offsets.length := by omega
    rw [getD_append_lt h1]; exact hw.off1
  · show P + 16 ≤ (w.doc ++ _).length
    have := hw.doclen
    simp only [List.length_append]
    omega
  · intro i h2 hlen
    simp only [List.length_append, List.length_cons, List.length_nil] at hlen
    by_cases hlt : i < w.obj_offsets.length
    · rw [getD_append_lt hlt]
      obtain ⟨hh, hb⟩ := hw.hdrs i h2 hlt
      exact ⟨hh.append_right _, hb⟩
    · push_neg at hlt
      rw [getD_append_ge hlt]
      have hdoclen := hw.doclen
      have hcases : i - w.obj_offsets.length = 0 ∨ i - w.obj_offsets.length = 1 ∨
          i - w.obj_offsets.length = 2 := by omega
      rcases hcases with hc | hc | hc
      all_goals rw [hc]
      · -- the page object, identifier `w.last_obj + 1 = i`
        have hi : i = w.last_obj + 1 := by omega
        subst hi
        refine ⟨headerAt_of_eq w.doc
          (iBlockOf w.last_obj p ++ cBlockOf w.last_obj p)
          (pageBody (w.last_obj + 2) (w.last_obj + 3) (ptW p) (ptH p)) ?_ ?_, ?_⟩
        · simp [pBlockOf, pageBlock, List.append_assoc]
        · rfl
        · show P + 16 ≤ w.doc.length
          omega
      · -- the image object, identifier `w.last_obj + 2 = i`
        have hi : i = w.last_obj + 2 := by omega
        subst hi
        refine ⟨headerAt_of_eq (w.doc ++ pBlockOf w.last_obj p)
          (cBlockOf w.last_obj p)
          (imageBody p.width_px p.height_px (csOf p) p.jpegdata.bytes p.jpegdata.bytes.length) ?_ ?_, ?_⟩
        · simp [pBlockOf, pageBlock, iBlockOf, imageBlock, List.append_assoc]
        · simp [List.length_append]
        · show P + 16 ≤ w.doc.length + (pBlockOf w.last_obj p).length
          omega
      · -- the content-stream object, identifier `w.last_obj + 3 = i`
        have hi : i = w.last_obj + 3 := by omega
        subst hi
        refine ⟨headerAt_of_eq ((w.doc ++ pBlockOf w.last_obj p) ++ iBlockOf w.last_obj p)
          ([] : List Char)
          (contentsBody (ptW p) (ptH p)) ?_ ?_, ?_⟩
        · simp [pBlockOf, pageBlock, iBlockOf, imageBlock, cBlockOf, contentsBlock, List.append_assoc]
        · simp [List.length_append]; omega
        · show P + 16 ≤ w.doc.length + (pBlockOf w.last_obj p).length + (iBlockOf w.last_obj p).length
          omega

theorem inv_runAdd {P : Nat} (pages : List PageArgs) (hv : ∀ p ∈ pages, validArgs p)
    {w : PDFWriter} (hw : Inv P w) :
    Inv P (runAdd w pages) ∧ (runAdd w pages).page_count = w.page_count + pages.length := by
  induction pages generalizing w with
  | nil => simpa [runAdd] using hw
  | cons p t ih =>
    have hvp : validArgs p := hv p (by simp)
    have hvt : ∀ q ∈ t, validArgs q := fun q hq => hv q (by simp [hq])
    obtain ⟨hw1, hc1⟩ := inv_addPage1 hw p hvp
    obtain ⟨hw2, hc2⟩ := ih hvt hw1
    refine ⟨by simpa [runAdd] using hw2, ?_⟩
    have : runAdd w (p :: t) = runAdd (addPage1 w p) t := by simp [runAdd]
    rw [this, hc2, hc1]
    simp [List.length_cons]
    omega

/-- Everything `close` establishes, starting from an invariant-satisfying state
with at least one page. -/
theorem close_facts {P : Nat} {w : PDFWriter} (hw : Inv P w) (hpc : 1 ≤ w.page_count)
    (uuid : List Char) :
    (w.close uuid).snd = none ∧
    ((w.close uuid).fst.is_open = false ∧
     (w.close uuid).fst.page_count = w.page_count ∧
     (w.close uuid).fst.page_refs = w.page_refs ∧
     (w.close uuid).fst.last_obj = 3 * w.page_count + 2 ∧
     (w.close uuid).fst.xref_size = 3 * w.page_count + 3 ∧
     (w.close uuid).fst.obj_offsets.length = 3 * w.page_count + 3 ∧
     (w.close uuid).fst.initial_offset = P ∧
     (w.close uuid).fst.obj_offsets.getD 0 0 = P) ∧
    (∀ i, 1 ≤ i → i < (w.close uuid).fst.obj_offsets.length →
      HeaderAt (w.close uuid).fst.doc ((w.close uuid).fst.obj_offsets.getD i 0) i ∧
      P + 16 ≤ (w.close uuid).fst.obj_offsets.getD i 0) ∧
    (∃ pre rest, (w.close uuid).fst.doc =
        pre ++ xrefSectionChars (w.close uuid).fst.obj_offsets P ((w.close uuid).fst.xref_size) ++ rest ∧
      pre.length = (w.close uuid).fst.xref_offset) ∧
    (∃ pre rest, (w.close uuid).fst.doc =
        pre ++ pageListBlock w.page_count (kidsStr w.page_refs) ++ rest ∧
      pre.length = (w.close uuid).fst.obj_offsets.getD 1 0) := by
  have hspec := close_spec w uuid hw.opened hpc
  have hlastv : w.last_obj = 3 * w.page_count + 1 := hw.last
  have hofflenv : w.obj_offsets.length = 3 * w.page_count + 2 := hw.offlen
  have hdoclen := hw.doclen
  rw [hspec]
  -- abbreviations for the appended pieces
  set cat := catalogBlock (w.last_obj + 1) with hcat
  set pl := pageListBlock w.page_count (kidsStr w.page_refs) with hpl
  set offsF := (w.obj_offsets ++ [w.doc.length]).set 1 (w.doc.length + cat.length) with hoffsF
  have hlenF : offsF.length = 3 * w.page_count + 3 := by
    rw [hoffsF]
    simp [List.length_set, List.length_append, hofflenv]
  refine ⟨rfl, ⟨rfl, rfl, rfl, by show w.last_obj + 1 = _; omega,
      by show w.last_obj + 2 = _; omega, hlenF, hw.ini, ?_⟩, ?_, ?_, ?_⟩
  · -- entry 0 still records the initial offset
    show offsF.getD 0 0 = P
    rw [hoffsF, getD_set_ne (by omega),
        getD_append_lt (by omega)]
    exact hw.off0
  · -- headers for every identifier 1 .. 3N+2
    intro i h1 hlen
    rw [hlenF] at hlen
    show HeaderAt _ (offsF.getD i 0) i ∧ P + 16 ≤ offsF.getD i 0
    by_cases hi1 : i = 1
    · subst hi1
      have : offsF.getD 1 0 = w.doc.length + cat.length := by
        rw [hoffsF]
        exact getD_set_self (by simp [List.length_append]; omega)
      rw [this]
      constructor
      · exact headerAt_of_eq (w.doc ++ cat)
          (xrefSectionChars offsF w.initial_offset (w.last_obj + 2) ++
                   trailerChars (w.last_obj + 2) (w.last_obj + 1)
                     (w.doc.length + cat.length + pl.length) uuid)
          (pageListBody w.page_count (kidsStr w.page_refs))
          (by simp [hpl, pageListBlock, List.append_assoc]) (by simp)
      · omega
    · by_cases hicat : i = 3 * w.page_count + 2
      · -- the catalog object
        subst hicat
        have : offsF.getD (3 * w.page_count + 2) 0 = w.doc.length := by
          rw [hoffsF, getD_set_ne (by omega), getD_append_ge (by omega), hofflenv]
          simp
        rw [this]
        constructor
        · refine headerAt_of_eq w.doc
            (pl ++ (xrefSectionChars offsF w.initial_offset (w.last_obj + 2) ++
                     trailerChars (w.last_obj + 2) (w.last_obj + 1)
                       (w.doc.length + cat.length + pl.length) uuid))
            catalogBody ?_ rfl
          have : w.last_obj + 1 = 3 * w.page_count + 2 := by omega
          rw [← this, hcat]
          simp [catalogBlock, List.append_assoc]
        · omega
      · -- an object emitted by some add_page call
        have hi2 : 2 ≤ i := by omega
        have hilt : i < w.obj_offsets.length := by omega
        have : offsF.getD i 0 = w.obj_offsets.getD i 0 := by
          rw [hoffsF, getD_set_ne (fun h => hi1 h.symm), getD_append_lt hilt]
        rw [this]
        obtain ⟨hh, hb⟩ := hw.hdrs i hi2 hilt
        refine ⟨?_, hb⟩
        have hext := hh.append_right
          (cat ++ (pl ++ (xrefSectionChars offsF w.initial_offset (w.last_obj + 2) ++
            trailerChars (w.last_obj + 2) (w.last_obj + 1)
              (w.doc.length + cat.length + pl.length) uuid)))
        simpa [List.append_assoc] using hext
  · -- the xref section sits at xref_offset
    refine ⟨w.doc ++ (cat ++ pl),
            trailerChars (w.last_obj + 2) (w.last_obj + 1)
              (w.doc.length + cat.length + pl.length) uuid, ?_, ?_⟩
    · rw [hw.ini]
      simp [List.append_assoc]
    · simp [List.length_append]; omega
  · -- the page-list object sits at the back-patched slot-1 offset
    refine ⟨w.doc ++ cat,
            xrefSectionChars offsF w.initial_offset (w.last_obj + 2) ++
              trailerChars (w.last_obj + 2) (w.last_obj + 1)
                (w.doc.length + cat.length + pl.length) uuid, ?_, ?_⟩
    · simp [List.append_assoc]
    · have : offsF.getD 1 0 = w.doc.length + cat.length := by
        rw [hoffsF]
        exact getD_set_self (by simp [List.length_append]; omega)
      rw [this]
      simp [List.length_append]

/-! ## Decimal-width bounds for the fixed-width xref lines -/

theorem decDigitsAux_length_le {f n k : Nat} (hf : n < f) (hk : 1 ≤ k)
    (hn : n < 10 ^ k) : (decDigitsAux f n).length ≤ k := by
  induction f generalizing n k with
  | zero => omega
  | succ f ih =>
    rw [decDigitsAux]
    by_cases h10 : n < 10
    · simp [h10]; omega
    · simp only [h10, if_false, List.length_append, List.length_cons, List.length_nil]
      have hk2 : 2 ≤ k := by
        by_contra hh
        have hk1 : k = 1 := by omega
        subst hk1
        simp at hn
        omega
      have hpow : 10 ^ k = 10 * 10 ^ (k - 1) := by
        calc 10 ^ k = 10 ^ (1 + (k - 1)) := by congr 1; omega
        _ = 10 * 10 ^ (k - 1) := by rw [pow_add, pow_one]
      have h1 : n / 10 < f := by omega
      have h3 : n / 10 < 10 ^ (k - 1) := by omega
      have := ih h1 (by omega) h3
      omega

theorem natStr_length_le {n k : Nat} (hk : 1 ≤ k) (hn : n < 10 ^ k) :
    (natStr n).length ≤ k :=
  decDigitsAux_length_le (Nat.lt_succ_self n) hk hn

theorem padZeros_length {w : Nat} {s : List Char} (h : s.length ≤ w) :
    (padZeros w s).length = w := by
  simp only [padZeros, List.length_append, List.length_replicate]
  omega

/-- The xref line of the sentinel entry (offset equal to `initial_offset`). -/
theorem xrefEntry_sentinel (initial : Nat) :
    xrefEntry initial initial = padZeros 10 (natStr initial) ++ bs " 65535 f " := by
  unfold xrefEntry
  rw [if_pos rfl, if_pos rfl]
  have h : bs " " ++ (padZeros 5 (natStr 65535) ++ (bs " " ++ (bs "f" ++ bs " "))) =
      bs " 65535 f " := by decide
  rw [← h]
  simp [List.append_assoc]

/-- The xref line of a real object (offset different from `initial_offset`). -/
theorem xrefEntry_active {off initial : Nat} (h : off ≠ initial) :
    xrefEntry off initial = padZeros 10 (natStr off) ++ bs " 00000 n " := by
  unfold xrefEntry
  rw [if_neg h, if_neg h]
  have h2 : bs " " ++ (padZeros 5 (natStr 0) ++ (bs " " ++ (bs "n" ++ bs " "))) =
      bs " 00000 n " := by decide
  rw [← h2]
  simp [List.append_assoc]

/-- Every xref line is exactly 19 bytes (before its newline) as long as the
offset fits in 10 decimal digits. -/
theorem xrefEntry_length {off initial : Nat} (h : off < 10 ^ 10) :
    (xrefEntry off initial).length = 19 := by
  have h10 : (natStr off).length ≤ 10 := natStr_length_le (by omega) h
  have hp10 : (padZeros 10 (natStr off)).length = 10 := padZeros_length h10
  have hp5a : (padZeros 5 (natStr 65535)).length = 5 := by decide
  have hp5b : (padZeros 5 (natStr 0)).length = 5 := by decide
  have e1 : (bs " ").length = 1 := rfl
  have e2 : (bs "f").length = 1 := rfl
  have e3 : (bs "n").length = 1 := rfl
  unfold xrefEntry
  by_cases he : off = initial
  · rw [if_pos he, if_pos he]
    simp only [List.length_append, hp10, hp5a, e1, e2]
  · rw [if_neg he, if_neg he]
    simp only [List.length_append, hp10, hp5b, e1, e3]

/-! ## The closed-document facts assembled for a whole run -/

theorem runDoc_inv (file0 : List Char) (pages : List PageArgs)
    (hv : ∀ p ∈ pages, validArgs p) :
    Inv file0.length (runAdd (PDFWriter.init file0) pages) ∧
    (runAdd (PDFWriter.init file0) pages).page_count = pages.length := by
  obtain ⟨h1, h2⟩ := inv_runAdd pages hv (inv_init file0)
  exact ⟨h1, by simpa [PDFWriter.init] using h2⟩

/-! ## Failure-path characterizations -/

/-- `add_page` with arguments failing validation: the writer (open or closed) is
returned untouched together with the first applicable validation error. -/
theorem add_page_invalid (w : PDFWriter) (d : JpegData) (wd ht res : ℤ) (g : Bool)
    (hbad : ¬ validArgs ⟨d, wd, ht, res, g⟩) :
    w.add_page d wd ht res g =
      (w, some (if d.bytes.take SOI_size ≠ SOI then PdfErr.invalidData
        else if d.bytes.length < min_jpeg_len then PdfErr.invalidLength
        else if wd < 1 then PdfErr.invalidWidth
        else if ht < 1 then PdfErr.invalidHeight
        else PdfErr.invalidResolution)) := by
  unfold validArgs at hbad
  by_cases h1 : d.bytes.take SOI_size = SOI
  case neg => simp [PDFWriter.add_page, h1]
  by_cases h2 : d.bytes.length < min_jpeg_len
  case pos => simp [PDFWriter.add_page, h1, h2]
  by_cases h3 : wd < 1
  case pos => simp [PDFWriter.add_page, h1, h2, h3]
  by_cases h4 : ht < 1
  case pos => simp [PDFWriter.add_page, h1, h2, h3, h4]
  have h5 : res < 1 := by
    simp only [not_and_or, not_le] at hbad
    rcases hbad with h | h | h | h | h
    · exact absurd h1 h
    · omega
    · omega
    · omega
    · exact h
  simp [PDFWriter.add_page, h1, h2, h3, h4, h5]

/-- `add_page` with valid arguments on a closed writer: the bookkeeping is
mutated (identifiers allocated, page recorded) and only then does the first
write raise the closed error; nothing is written. -/
theorem add_page_closed_spec (w : PDFWriter) (p : PageArgs)
    (hclosed : w.is_open = false) (hv : validArgs p) :
    w.add_page p.jpegdata p.width_px p.height_px p.resolution p.grayscale =
      ({ w with last_obj := w.last_obj + 3,
                page_refs := w.page_refs ++ [w.last_obj + 1],
                page_count := w.page_count + 1 }, some PdfErr.closed) := by
  obtain ⟨h1, h2, h3, h4, h5⟩ := hv
  have h2' : ¬ (p.jpegdata.bytes.length < min_jpeg_len) := not_lt.mpr h2
  have h3' : ¬ (p.width_px < 1) := not_lt.mpr h3
  have h4' : ¬ (p.height_px < 1) := not_lt.mpr h4
  have h5' : ¬ (p.resolution < 1) := not_lt.mpr h5
  simp [PDFWriter.add_page, h1, h2', h3', h4', h5', hclosed]

/-- `close` on a closed writer with at least one page recorded: the catalog
identifier is still allocated, then the first write raises the closed error. -/
theorem close_closed_spec (w : PDFWriter) (u : List Char)
    (hclosed : w.is_open = false) (hpc : 1 ≤ w.page_count) :
    w.close u = ({ w with last_obj := w.last_obj + 1 }, some PdfErr.closed) := by
  unfold PDFWriter.close
  rw [if_neg (not_lt.mpr hpc)]
  simp [hclosed]

/-! ## C1 -/

/-- C1: for every valid sequence of `N ≥ 1` `add_page` calls followed by `close`,
the close succeeds and the emitted cross-reference index is built from a ledger
with exactly `N*3 + 3` entries (three per page, plus page-list, catalog and the
identifier-0 sentinel): the index section declares size `N*3 + 3`, sits in the
stream at `xref_offset`, and lists the ledger in identifier order; entry 0
records the stream's starting position, and for every identifier `1 ≤ i ≤ 3N+2`
the recorded offset is the true byte position at which the header line
`'i 0 obj'` of that object begins in the output stream. -/
theorem xref_index_entries_and_offsets (file0 : List Char) (pages : List PageArgs)
    (uuid : List Char) (hN : 1 ≤ pages.length) (hv : ∀ p ∈ pages, validArgs p) :
    ((runAdd (PDFWriter.init file0) pages).close uuid).snd = none ∧
    (runDoc file0 pages uuid).xref_size = 3 * pages.length + 3 ∧
    (runDoc file0 pages uuid).obj_offsets.length = 3 * pages.length + 3 ∧
    (∃ pre rest,
        (runDoc file0 pages uuid).doc =
          pre ++ xrefSectionChars (runDoc file0 pages uuid).obj_offsets file0.length
            (runDoc file0 pages uuid).xref_size ++ rest ∧
        pre.length = (runDoc file0 pages uuid).xref_offset) ∧
    (runDoc file0 pages uuid).obj_offsets.getD 0 0 = file0.length ∧
    ∀ i, 1 ≤ i → i < (runDoc file0 pages uuid).obj_offsets.length →
      HeaderAt (runDoc file0 pages uuid).doc
        ((runDoc file0 pages uuid).obj_offsets.getD i 0) i := by
  obtain ⟨hinv, hcount⟩ := runDoc_inv file0 pages hv
  have hpc : 1 ≤ (runAdd (PDFWriter.init file0) pages).page_count := by omega
  obtain ⟨hsnd, ⟨_, _, _, _, hxs, holen, _, h0⟩, hhdrs, hxref, _⟩ :=
    close_facts hinv hpc uuid
  refine ⟨hsnd, ?_, ?_, hxref, h0, fun i hg hl => (hhdrs i hg hl).1⟩
  · rw [show runDoc file0 pages uuid = ((runAdd (PDFWriter.init file0) pages).close uuid).fst
        from rfl, hxs, hcount]
  · rw [show runDoc file0 pages uuid = ((runAdd (PDFWriter.init file0) pages).close uuid).fst
        from rfl, holen, hcount]

theorem xref_index_entries_and_offsets_witness :
    ((runAdd (PDFWriter.init []) [samplePage]).close []).snd = none ∧
    (runDoc [] [samplePage] []).xref_size = 6 := by
  have h := xref_index_entries_and_offsets [] [samplePage] [] (by decide) (by decide)
  refine ⟨h.1, ?_⟩
  have h2 := h.2.1
  simpa using h2

/-! ## C2 -/

/-- C2: on a not-yet-closed writer, an `add_page` whose arguments fail
validation raises the corresponding validation error (invalid payload, invalid
length, invalid width/height/resolution, checked in that order) before writing
any byte, and leaves the writer — page count, page-reference list, last
allocated identifier, ledger and stream — exactly as it was. -/
theorem add_page_validation_pre_state (w : PDFWriter) (d : JpegData)
    (wd ht res : ℤ) (g : Bool) (_hopen : w.is_open = true)
    (hbad : ¬ validArgs ⟨d, wd, ht, res, g⟩) :
    (w.add_page d wd ht res g).fst = w ∧
    (w.add_page d wd ht res g).snd =
      some (if d.bytes.take SOI_size ≠ SOI then PdfErr.invalidData
        else if d.bytes.length < min_jpeg_len then PdfErr.invalidLength
        else if wd < 1 then PdfErr.invalidWidth
        else if ht < 1 then PdfErr.invalidHeight
        else PdfErr.invalidResolution) := by
  rw [add_page_invalid w d wd ht res g hbad]
  exact ⟨rfl, rfl⟩

theorem add_page_validation_pre_state_witness :
    ((PDFWriter.init []).add_page (JpegData.str (List.replicate 10 '\x00')) 800 600 72 false).fst
      = PDFWriter.init [] ∧
    ((PDFWriter.init []).add_page (JpegData.str (List.replicate 10 '\x00')) 800 600 72 false).snd
      = some PdfErr.invalidData := by
  have h := add_page_validation_pre_state (PDFWriter.init [])
    (JpegData.str (List.replicate 10 '\x00')) 800 600 72 false (by decide) (by decide)
  refine ⟨h.1, ?_⟩
  rw [h.2]
  decide

/-! ## C3 -/

/-- C3 counterexample: immediately after initialization the ledger has 2 entries
(slots 0 and 1) while `last_allocated_identifier + 2 = 1 + 2 = 3`; the claimed
`+ 2` relation is off by one. -/
theorem ledger_length_plus_two_false :
    ¬ ((PDFWriter.init []).obj_offsets.length = (PDFWriter.init []).last_obj + 2) := by
  decide

/-- C3 (amended): at every point after initialization reachable through the API
(initialization, `add_page` with any arguments on an open writer, `close` on an
open writer), the ledger length equals `last_allocated_identifier + 1` — one
slot per identifier `0 .. last_obj`, the reserved 0 and 1 slots included. -/
theorem ledger_length_invariant (file0 : List Char) (w : PDFWriter)
    (h : Reaches file0 w) : w.obj_offsets.length = w.last_obj + 1 := by
  induction h with
  | init => simp [PDFWriter.init]
  | add_page w p hr hopen ih =>
    by_cases hv : validArgs p
    · have hspec := add_page_spec w p hopen hv
      unfold addPage1
      rw [hspec]
      simp only [List.length_append, List.length_cons, List.length_nil]
      omega
    · unfold addPage1
      rw [add_page_invalid w p.jpegdata p.width_px p.height_px p.resolution p.grayscale
        (by cases p; exact hv)]
      exact ih
  | close w u hr hopen ih =>
    by_cases hpc : 1 ≤ w.page_count
    · have hspec := close_spec w u hopen hpc
      rw [hspec]
      simp only [List.length_set, List.length_append, List.length_cons, List.length_nil]
      omega
    · unfold PDFWriter.close
      rw [if_pos (by omega)]
      exact ih

theorem ledger_length_invariant_witness :
    (PDFWriter.init []).obj_offsets.length = (PDFWriter.init []).last_obj + 1 :=
  ledger_length_invariant [] (PDFWriter.init []) Reaches.init

/-! ## C4 -/

/-- C4 counterexample: `_pixels_to_points` computes in double-precision floating
point, and already the int-to-float conversion of `pixels = 2^53 + 1` rounds it
to `2^53`, so the result is below `floor(pixels / resolution * 72)` computed
exactly. -/
theorem pixels_to_points_floor_false :
    ¬ (pixels_to_points 9007199254740993 1 = (9007199254740993 * 72) / 1) := by
  decide

/-- C4 (amended): the page dimension is `int(pixels / float(resolution) * 72)`
evaluated in binary64 floating point.  On the documented examples the result
coincides with the exact truncating formula `(pixels * 72) / resolution` — 384
points for 800 px at 150 dpi and 1508 points for 1508 px at 72 dpi — but for
pixel counts of magnitude around `2^53` the float result can fall below the
exact floor. -/
theorem pixels_to_points_examples :
    pixels_to_points 800 150 = 384 ∧ (800 * 72) / 150 = (384 : ℤ) ∧
    pixels_to_points 1508 72 = 1508 ∧ (1508 * 72) / 72 = (1508 : ℤ) ∧
    pixels_to_points 9007199254740993 1 < (9007199254740993 * 72) / 1 := by
  decide

/-! ## C5 -/

/-- C5: after a valid run, the page-reference list holds exactly the page
identifiers allocated by the `add_page` calls, in call order (`3k + 2` for the
`k`-th call, whose pre-state had `last_obj = 3k + 1`), and the emitted page-list
object's child-reference (`Kids`) string is built from exactly that list in that
order. -/
theorem page_list_order (file0 : List Char) (pages : List PageArgs) (uuid : List Char)
    (hN : 1 ≤ pages.length) (hv : ∀ p ∈ pages, validArgs p) :
    (runDoc file0 pages uuid).page_refs =
      (List.range pages.length).map (fun k => 3 * k + 2) ∧
    (∀ k, k < pages.length →
      (runAdd (PDFWriter.init file0) (pages.take k)).last_obj + 1 = 3 * k + 2 ∧
      (runDoc file0 pages uuid).page_refs.getD k 0 = 3 * k + 2) ∧
    (∃ pre rest,
        (runDoc file0 pages uuid).doc =
          pre ++ pageListBlock pages.length (kidsStr (runDoc file0 pages uuid).page_refs) ++ rest ∧
        pre.length = (runDoc file0 pages uuid).obj_offsets.getD 1 0) := by
  obtain ⟨hinv, hcount⟩ := runDoc_inv file0 pages hv
  have hpc : 1 ≤ (runAdd (PDFWriter.init file0) pages).page_count := by omega
  obtain ⟨_, ⟨_, hcnt, hrefs, _, _, _, _, _⟩, _, _, hplist⟩ :=
    close_facts hinv hpc uuid
  have hrd : runDoc file0 pages uuid = ((runAdd (PDFWriter.init file0) pages).close uuid).fst :=
    rfl
  have hrefs' : (runDoc file0 pages uuid).page_refs =
      (List.range pages.length).map (fun k => 3 * k + 2) := by
    rw [hrd, hrefs, hinv.refs, hcount]
  refine ⟨hrefs', ?_, ?_⟩
  · intro k hk
    have hvk : ∀ p ∈ pages.take k, validArgs p := fun p hp => hv p (List.take_subset k pages hp)
    obtain ⟨hinvk, hcountk⟩ := runDoc_inv file0 (pages.take k) hvk
    have hkc : (runAdd (PDFWriter.init file0) (pages.take k)).page_count = k := by
      rw [hcountk, List.length_take]
      omega
    constructor
    · rw [hinvk.last, hkc]
    · rw [hrefs']
      simp [List.getD_eq_getElem?_getD, List.getElem?_map, List.getElem?_range hk]
  · obtain ⟨pre, rest, hdoc, hlen⟩ := hplist
    refine ⟨pre, rest, ?_, ?_⟩
    · rw [hrd, hdoc, hcount, hrefs]
    · rw [hrd, hlen]

theorem page_list_order_witness :
    (runDoc [] [samplePage] []).page_refs = [2] := by
  have h := (page_list_order [] [samplePage] [] (by decide) (by decide)).1
  rw [h]
  decide

/-! ## C6 -/

/-- C6: supplying the same payload bytes as an in-memory block or as a readable
stream yields exactly the same writer state and outcome — in particular the
chunked streaming copy and the direct write emit byte-identical output for the
same logical payload, so whole documents built either way are byte-identical. -/
theorem stream_vs_memory_identical (w : PDFWriter) (data : List Char)
    (wd ht res : ℤ) (g : Bool) :
    w.add_page (JpegData.fileLike data) wd ht res g =
      w.add_page (JpegData.str data) wd ht res g := by
  unfold PDFWriter.add_page
  simp [JpegData.bytes, writeImage_eq]

/-! ## C7 -/

/-- C7 counterexample: the line emitted for a ledger entry whose recorded offset
is `10^10` carries an 11-digit offset field and is 20 bytes before its newline —
Python's `%010d` grows past the field width instead of truncating, so the index
lines are not universally fixed-width 10-digit records. -/
theorem xref_line_width_false :
    (xrefEntry (10 ^ 10) 0).length = 20 ∧ ¬ ((xrefEntry (10 ^ 10) 0).length = 19) ∧
    (padZeros 10 (natStr (10 ^ 10))).length = 11 := by
  decide

/-- C7 (amended): the index emitted at close has one line per ledger entry in
identifier order; every real object's line carries generation 0 and status `n`,
the identifier-0 sentinel's line carries generation 65535 and status `f` — and
no other entry is formatted as free, since every real offset lies strictly
beyond the preamble; each line is a fixed-width 19-byte record (10-digit
zero-padded offset, space, 5-digit generation, space, status flag, trailing
space) whenever the recorded offset fits in 10 decimal digits — offsets of
`10^10` or more widen the field. -/
theorem xref_line_formats (file0 : List Char) (pages : List PageArgs) (uuid : List Char)
    (hN : 1 ≤ pages.length) (hv : ∀ p ∈ pages, validArgs p) :
    (∃ pre rest,
        (runDoc file0 pages uuid).doc =
          pre ++ xrefSectionChars (runDoc file0 pages uuid).obj_offsets file0.length
            (runDoc file0 pages uuid).xref_size ++ rest ∧
        pre.length = (runDoc file0 pages uuid).xref_offset) ∧
    xrefEntry ((runDoc file0 pages uuid).obj_offsets.getD 0 0)
        (runDoc file0 pages uuid).initial_offset =
      padZeros 10 (natStr file0.length) ++ bs " 65535 f " ∧
    (∀ i, 1 ≤ i → i < (runDoc file0 pages uuid).obj_offsets.length →
      xrefEntry ((runDoc file0 pages uuid).obj_offsets.getD i 0)
          (runDoc file0 pages uuid).initial_offset =
        padZeros 10 (natStr ((runDoc file0 pages uuid).obj_offsets.getD i 0)) ++
          bs " 00000 n ") ∧
    (∀ i, i < (runDoc file0 pages uuid).obj_offsets.length →
      (runDoc file0 pages uuid).obj_offsets.getD i 0 < 10 ^ 10 →
      (xrefEntry ((runDoc file0 pages uuid).obj_offsets.getD i 0)
          (runDoc file0 pages uuid).initial_offset).length = 19) := by
  obtain ⟨hinv, hcount⟩ := runDoc_inv file0 pages hv
  have hpc : 1 ≤ (runAdd (PDFWriter.init file0) pages).page_count := by omega
  obtain ⟨_, ⟨_, _, _, _, _, _, hini, h0⟩, hhdrs, hxref, _⟩ :=
    close_facts hinv hpc uuid
  have hrd : runDoc file0 pages uuid = ((runAdd (PDFWriter.init file0) pages).close uuid).fst :=
    rfl
  rw [hrd]
  refine ⟨hxref, ?_, ?_, ?_⟩
  · rw [h0, hini]
    exact xrefEntry_sentinel file0.length
  · intro i h1 hl
    have hb := (hhdrs i h1 hl).2
    rw [hini]
    exact xrefEntry_active (by omega)
  · intro i hl hfit
    exact xrefEntry_length hfit

theorem xref_line_formats_witness :
    xrefEntry ((runDoc [] [samplePage] []).obj_offsets.getD 2 0)
        (runDoc [] [samplePage] []).initial_offset =
      padZeros 10 (natStr ((runDoc [] [samplePage] []).obj_offsets.getD 2 0)) ++
        bs " 00000 n " := by
  have h := (xref_line_formats [] [samplePage] [] (by decide) (by decide)).2.2.1
  exact h 2 (by decide) (by decide)

/-! ## C8 -/

/-- C8 counterexample: on a sealed writer, an `add_page` whose payload fails
validation raises the payload validation error, not the closed-resource error —
validation runs before the closed check. -/
theorem closed_writer_invalid_payload_error :
    (runDoc [] [samplePage] []).is_open = false ∧
    ((runDoc [] [samplePage] []).add_page (JpegData.str (List.replicate 10 '\x00'))
        800 600 72 false).snd = some PdfErr.invalidData ∧
    ((runDoc [] [samplePage] []).add_page (JpegData.str (List.replicate 10 '\x00'))
        800 600 72 false).snd ≠ some PdfErr.closed := by
  decide

/-- C8 (amended): after `close` has sealed the document, any `add_page` whose
arguments pass validation and any second `close` fail with the closed-resource
error; an `add_page` whose arguments fail validation raises the corresponding
validation error instead. -/
theorem closed_writer_calls (w : PDFWriter) (p : PageArgs) (u : List Char)
    (hclosed : w.is_open = false) (hv : validArgs p) (hpc : 1 ≤ w.page_count) :
    (w.add_page p.jpegdata p.width_px p.height_px p.resolution p.grayscale).snd
        = some PdfErr.closed ∧
    (w.close u).snd = some PdfErr.closed := by
  constructor
  · rw [add_page_closed_spec w p hclosed hv]
  · rw [close_closed_spec w u hclosed hpc]

theorem closed_writer_calls_witness :
    ((runDoc [] [samplePage] []).add_page samplePage.jpegdata samplePage.width_px
        samplePage.height_px samplePage.resolution samplePage.grayscale).snd
      = some PdfErr.closed ∧
    ((runDoc [] [samplePage] []).close []).snd = some PdfErr.closed :=
  closed_writer_calls (runDoc [] [samplePage] []) samplePage []
    (by decide) (by decide) (by decide)

/-! ## C9 -/

/-- C9: `close` on a writer with zero pages fails with the empty-document error
and changes nothing; and whenever `close` succeeds the page count was at least
one. -/
theorem close_empty_document (w : PDFWriter) (u : List Char) :
    (w.page_count = 0 → w.close u = (w, some PdfErr.noPages)) ∧
    ((w.close u).snd = none → 1 ≤ w.page_count) := by
  constructor
  · intro h0
    unfold PDFWriter.close
    rw [if_pos (by omega)]
  · intro hn
    by_contra hlt
    push_neg at hlt
    unfold PDFWriter.close at hn
    rw [if_pos (by omega)] at hn
    simp at hn

theorem close_empty_document_witness :
    (PDFWriter.init []).close [] = (PDFWriter.init [], some PdfErr.noPages) :=
  (close_empty_document (PDFWriter.init []) []).1 (by decide)

/-! ## C10 -/

/-- C10: on an already-closed writer, an `add_page` whose arguments pass
validation raises the closed-resource error, but only after it has incremented
the page count, appended the freshly allocated page identifier to the
page-reference list, and advanced the last allocated identifier by 3 — the
failed call is not state-preserving (though nothing is written to the stream). -/
theorem closed_add_page_mutates (w : PDFWriter) (p : PageArgs)
    (hclosed : w.is_open = false) (hv : validArgs p) :
    (w.add_page p.jpegdata p.width_px p.height_px p.resolution p.grayscale).snd
        = some PdfErr.closed ∧
    (w.add_page p.jpegdata p.width_px p.height_px p.resolution p.grayscale).fst.page_count
        = w.page_count + 1 ∧
    (w.add_page p.jpegdata p.width_px p.height_px p.resolution p.grayscale).fst.page_refs
        = w.page_refs ++ [w.last_obj + 1] ∧
    (w.add_page p.jpegdata p.width_px p.height_px p.resolution p.grayscale).fst.last_obj
        = w.last_obj + 3 ∧
    (w.add_page p.jpegdata p.width_px p.height_px p.resolution p.grayscale).fst.doc
        = w.doc := by
  rw [add_page_closed_spec w p hclosed hv]
  exact ⟨rfl, rfl, rfl, rfl, rfl⟩

theorem closed_add_page_mutates_witness :
    ((runDoc [] [samplePage] []).add_page samplePage.jpegdata samplePage.width_px
        samplePage.height_px samplePage.resolution samplePage.grayscale).snd
      = some PdfErr.closed ∧
    ((runDoc [] [samplePage] []).add_page samplePage.jpegdata samplePage.width_px
        samplePage.height_px samplePage.resolution samplePage.grayscale).fst.page_count
      = (runDoc [] [samplePage] []).page_count + 1 := by
  have h := closed_add_page_mutates (runDoc [] [samplePage] []) samplePage
    (by decide) (by decide)
  exact ⟨h.1, h.2.1⟩

end QdPdf
